import Mathlib

/- Verification development for the rust-simple-tests concurrency harness.

The Rust sources (src/main.rs, src/thread.rs) are shallowly embedded below:
each lock-protected critical section of a worker thread becomes one atomic
event, a concrete multi-threaded execution becomes an explicit interleaving
schedule (a list of events), and each scenario becomes a total Lean function
from a schedule to the `Result<(), _>` value the Rust scenario returns.
Fallible Rust code returns `Except String`; the `assert_res!` and
`assert_eq_res!` macros of main.rs become functions producing exactly the
message strings the macros format. -/

/-- `THREAD_COUNT` from thread.rs line 11. -/
def THREAD_COUNT : Nat := 10

/-- `ITER_COUNT` from thread.rs line 12. -/
def ITER_COUNT : Nat := 20

/-- The message built by the `assert_eq_res!` macro (main.rs lines 93-111):
`"Assertion failed: `{left}` != `{right}`. Left: {:?}, Right: {:?}"` with the
stringified expressions and the two rendered values spliced in. -/
def assert_eq_msg (sl sr lv rv : String) : String :=
  "Assertion failed: `" ++ sl ++ "` != `" ++ sr ++ "`. Left: " ++ lv ++ ", Right: " ++ rv

/-- Embedding of the `assert_eq_res!` macro (main.rs lines 93-111): compare the
two values under the type's equality; on mismatch produce an `Err` carrying the
stringified expressions `sl`, `sr` and both values rendered by `render` (the
`{:?}` Debug formatting of the macro). The caller early-returns the `Err`
through `Except` bind, which models the macro's `return Err(...)`. -/
def assert_eq_res {α : Type} [DecidableEq α] (sl sr : String) (l r : α)
    (render : α → String) : Except String Unit :=
  if l = r then Except.ok () else Except.error (assert_eq_msg sl sr (render l) (render r))

/-- Embedding of the `assert_res!` macro (main.rs lines 84-91). -/
def assert_res (txt : String) (cond : Bool) : Except String Unit :=
  if cond then Except.ok () else Except.error ("Assertion failed: `" ++ txt ++ "` is false")

deriving instance DecidableEq for Except

/-- A string `sub` occurs somewhere inside `msg`. -/
def occursIn (sub msg : String) : Prop :=
  ∃ a b, msg = a ++ sub ++ b

/-- C6: the equality assertion succeeds, and its caller continues, exactly when
the two values are equal; on failure the caller early-returns an `Err` whose
message contains the literal expression texts and the printable renderings of
both values; being a total function into `Except`, it never aborts the caller. -/
theorem assert_eq_res_spec {α : Type} [DecidableEq α] (sl sr : String) (l r : α)
    (render : α → String) :
    (assert_eq_res sl sr l r render = Except.ok () ↔ l = r)
    ∧ (∀ (β : Type) (k : Unit → Except String β), l = r →
        (assert_eq_res sl sr l r render >>= k) = k ())
    ∧ (l ≠ r → ∃ msg, assert_eq_res sl sr l r render = Except.error msg
        ∧ occursIn sl msg ∧ occursIn sr msg
        ∧ occursIn (render l) msg ∧ occursIn (render r) msg)
    ∧ (∀ (β : Type) (k : Unit → Except String β), l ≠ r →
        ∃ msg, (assert_eq_res sl sr l r render >>= k) = Except.error msg) := by
  refine ⟨?_, ?_, ?_, ?_⟩
  · unfold assert_eq_res
    constructor
    · intro h
      by_contra hne
      simp [hne] at h
    · intro h; simp [h]
  · intro β k h
    simp only [assert_eq_res, if_pos h]
    rfl
  · intro h
    refine ⟨assert_eq_msg sl sr (render l) (render r), by simp [assert_eq_res, h], ?_, ?_, ?_, ?_⟩
    · exact ⟨"Assertion failed: `", "` != `" ++ sr ++ "`. Left: " ++ render l ++ ", Right: " ++ render r, by
        simp [assert_eq_msg, String.append_assoc]⟩
    · exact ⟨"Assertion failed: `" ++ sl ++ "` != `", "`. Left: " ++ render l ++ ", Right: " ++ render r, by
        simp [assert_eq_msg, String.append_assoc]⟩
    · exact ⟨"Assertion failed: `" ++ sl ++ "` != `" ++ sr ++ "`. Left: ", ", Right: " ++ render r, by
        simp [assert_eq_msg, String.append_assoc]⟩
    · exact ⟨"Assertion failed: `" ++ sl ++ "` != `" ++ sr ++ "`. Left: " ++ render l ++ ", Right: ", "", by
        simp [assert_eq_msg, String.append_assoc]⟩
  · intro β k h
    refine ⟨assert_eq_msg sl sr (render l) (render r), ?_⟩
    simp only [assert_eq_res, if_neg h]
    rfl

/-- C6 witness: the assertion at equal values `1 = 1` lets the caller continue,
and at `1 ≠ 2` early-returns an error mentioning both expression texts and both
rendered values. -/
theorem assert_eq_res_spec_witness :
    (assert_eq_res "x" "y" 1 1 toString = Except.ok () ↔ (1 : Nat) = 1)
    ∧ (∃ msg, assert_eq_res "x" "y" 1 2 toString = Except.error msg
        ∧ occursIn "x" msg ∧ occursIn "y" msg
        ∧ occursIn (toString (1 : Nat)) msg ∧ occursIn (toString (2 : Nat)) msg) :=
  ⟨(assert_eq_res_spec "x" "y" 1 1 toString).1,
   (assert_eq_res_spec "x" "y" 1 2 toString).2.2.1 (by decide)⟩

/- ==================== Runner (main.rs lines 63-81) ==================== -/

/-- Whether a scenario outcome is a failure (`Err`). -/
def isFail (r : Except String Unit) : Bool :=
  match r with
  | Except.ok _ => false
  | Except.error _ => true

/-- The report accumulated by the runner loop of `main` (main.rs lines 63-74):
the ordered per-scenario outcomes and the `failed` counter. -/
structure RunReport where
  outcomes : List (String × Except String Unit)
  failed : Nat

/-- Embedding of the runner loop of `main` (main.rs lines 63-74): invoke every
registered thunk in registration order, record its outcome, and bump `failed`
on an `Err`. A failing scenario does not stop the iteration. -/
def runTests : List (String × (Unit → Except String Unit)) → RunReport
  | [] => ⟨[], 0⟩
  | (name, func) :: rest =>
    let r := func ()
    let rep := runTests rest
    ⟨(name, r) :: rep.outcomes, (if isFail r then 1 else 0) + rep.failed⟩

/-- The summary line printed after the loop (main.rs lines 76-80). -/
def summaryLine (failed : Nat) : String :=
  if failed = 0 then "All tests passed!" else toString failed ++ " tests failed."

/-- The process exit code (main.rs line 80: `std::process::exit(1)` when any
scenario failed, otherwise `main` returns normally and the process exits 0). -/
def exitCode (failed : Nat) : Nat :=
  if failed = 0 then 0 else 1

/-- The outcomes of a run are the thunks evaluated in registration order. -/
theorem runTests_outcomes (registry : List (String × (Unit → Except String Unit))) :
    (runTests registry).outcomes = registry.map (fun p => (p.1, p.2 ())) := by
  induction registry with
  | nil => rfl
  | cons p rest ih =>
    obtain ⟨name, func⟩ := p
    simp [runTests, ih]

/-- The failed counter counts exactly the `Err` outcomes. -/
theorem runTests_failed (registry : List (String × (Unit → Except String Unit))) :
    (runTests registry).failed = (runTests registry).outcomes.countP (fun p => isFail p.2) := by
  induction registry with
  | nil => rfl
  | cons p rest ih =>
    obtain ⟨name, func⟩ := p
    simp only [runTests, List.countP_cons, ih]
    rcases func () with v | e <;> simp [isFail, Nat.add_comm]

/-- A nonzero failed count never renders the success summary: the failure
summary ends in a period while `"All tests passed!"` ends in a bang. -/
theorem summaryLine_ne_success (f : Nat) (h : f ≠ 0) :
    summaryLine f ≠ "All tests passed!" := by
  intro heq
  rw [summaryLine, if_neg h] at heq
  have hdata := congrArg String.data heq
  rw [String.data_append] at hdata
  have hlast := congrArg List.getLast? hdata
  rw [List.getLast?_append] at hlast
  simp at hlast

/-- C5: the runner invokes every registered thunk in registration order and a
`Fail` outcome never aborts the loop (the outcome list is the full map over the
registry); the failed count equals the number of `Fail` outcomes; the summary
line is `"All tests passed!"` exactly when the failed count is 0 and
`"<failed> tests failed."` otherwise; the exit code is 0 exactly on success. -/
theorem runner_spec (registry : List (String × (Unit → Except String Unit))) :
    (runTests registry).outcomes = registry.map (fun p => (p.1, p.2 ()))
    ∧ (runTests registry).outcomes.length = registry.length
    ∧ (runTests registry).failed = (runTests registry).outcomes.countP (fun p => isFail p.2)
    ∧ (summaryLine (runTests registry).failed = "All tests passed!"
        ↔ (runTests registry).failed = 0)
    ∧ ((runTests registry).failed ≠ 0 →
        summaryLine (runTests registry).failed
          = toString (runTests registry).failed ++ " tests failed.")
    ∧ (exitCode (runTests registry).failed = 0 ↔ (runTests registry).failed = 0) := by
  refine ⟨runTests_outcomes registry, ?_, runTests_failed registry, ?_, ?_, ?_⟩
  · rw [runTests_outcomes]; simp
  · constructor
    · intro h
      by_contra hne
      exact summaryLine_ne_success _ hne h
    · intro h; simp [summaryLine, h]
  · intro h; simp [summaryLine, h]
  · constructor
    · intro h
      by_contra hne
      simp [exitCode, hne] at h
    · intro h; simp [exitCode, h]

/-- C5 witness: a concrete two-entry registry whose second scenario fails. -/
theorem runner_spec_witness :
    (runTests [("pass one", fun _ => Except.ok ()), ("fail one", fun _ => Except.error "boom")]).outcomes
      = [("pass one", fun _ => Except.ok ()), ("fail one", fun _ => Except.error "boom")].map
          (fun p => (p.1, p.2 ()))
    ∧ summaryLine (runTests [("pass one", fun _ => Except.ok ()),
          ("fail one", fun _ => Except.error "boom")]).failed
      = toString (runTests [("pass one", fun _ => Except.ok ()),
          ("fail one", fun _ => Except.error "boom")]).failed ++ " tests failed." :=
  ⟨(runner_spec _).1,
   (runner_spec [("pass one", fun _ => Except.ok ()),
      ("fail one", fun _ => Except.error "boom")]).2.2.2.2.1 (by decide)⟩

/- ========== Worker threads and joining (thread.rs, several sites) ========== -/

/-- How a spawned worker thread terminates: normally with a return value, or
abnormally (a panic). `std::thread::JoinHandle::join` surfaces exactly this
distinction as `Ok(value)` versus `Err(panic payload)`. -/
inductive WorkerEnd (α : Type) where
  | normal (value : α)
  | panicked
  deriving DecidableEq

/-- Embedding of `handle.join().map_err(|_| msg.to_string())`: a normal
termination yields the worker's value, a panic is converted into an ordinary
error value carrying `msg`. -/
def joinHandle {α : Type} (w : WorkerEnd α) (msg : String) : Except String α :=
  match w with
  | WorkerEnd.normal v => Except.ok v
  | WorkerEnd.panicked => Except.error msg

/-- Embedding of `test_create_thread` (thread.rs lines 15-23), parameterised by
how the spawned worker terminated: `handle.join().map_err(|_| "Thread
panicked".to_string())?; Ok(())`. -/
def test_create_thread_run (w : WorkerEnd Unit) : Except String Unit :=
  match joinHandle w "Thread panicked" with
  | Except.error e => Except.error e
  | Except.ok _ => Except.ok ()

/-- Embedding of the join loop of `test_mutex_counter` (thread.rs lines 44-46):
`handle.join().map_err(|_| "Thread panicked".to_string())??` for each handle in
spawn order; the first error (panic conversion or worker-returned `Err`)
early-returns. -/
def mutexJoinAll : List (WorkerEnd (Except String Unit)) → Except String Unit
  | [] => Except.ok ()
  | w :: ws =>
    match joinHandle w "Thread panicked" with
    | Except.error e => Except.error e
    | Except.ok (Except.error e) => Except.error e
    | Except.ok (Except.ok _) => mutexJoinAll ws

/-- C7: a worker panic is converted at the join into a scenario failure whose
message says the thread panicked, and is delivered as an ordinary `Err` value
(the embedding is a total function into `Except`, so nothing is re-raised): in
`test_create_thread` a panicked worker makes the scenario return exactly
`Err("Thread panicked")`, and in the `test_mutex_counter` join loop a panicked
handle among otherwise clean workers does the same; the runner routes such an
outcome as a recorded failure and continues. -/
theorem join_converts_panic :
    (∀ w : WorkerEnd Unit, w = WorkerEnd.panicked →
      test_create_thread_run w = Except.error "Thread panicked")
    ∧ (∀ ws : List (WorkerEnd (Except String Unit)),
        WorkerEnd.panicked ∈ ws →
        (∀ w ∈ ws, w = WorkerEnd.panicked ∨ w = WorkerEnd.normal (Except.ok ())) →
        mutexJoinAll ws = Except.error "Thread panicked")
    ∧ (∀ name : String,
        (runTests [(name, fun _ => test_create_thread_run WorkerEnd.panicked)]).outcomes
          = [(name, Except.error "Thread panicked")]) := by
  refine ⟨?_, ?_, ?_⟩
  · intro w hw
    subst hw
    rfl
  · intro ws hmem hclean
    induction ws with
    | nil => cases hmem
    | cons w ws ih =>
      rcases hclean w (List.mem_cons_self w ws) with hp | hn
      · subst hp
        rfl
      · subst hn
        have hmem2 : WorkerEnd.panicked ∈ ws := by
          rcases List.mem_cons.mp hmem with h | h
          · cases h
          · exact h
        simpa [mutexJoinAll, joinHandle] using
          ih hmem2 (fun w hw => hclean w (List.mem_cons_of_mem _ hw))
  · intro name
    rfl

/-- C7 witness: one panicked worker in `test_create_thread`, and one panicked
handle between two clean ones in the mutex join loop. -/
theorem join_converts_panic_witness :
    test_create_thread_run WorkerEnd.panicked = Except.error "Thread panicked"
    ∧ mutexJoinAll [WorkerEnd.normal (Except.ok ()), WorkerEnd.panicked,
        WorkerEnd.normal (Except.ok ())] = Except.error "Thread panicked" :=
  ⟨join_converts_panic.1 _ rfl,
   join_converts_panic.2.1 _ (by simp) (by simp)⟩

/-- Embedding of `test_thread_join` (thread.rs lines 142-151): the spawned
closure returns `42`. -/
def threadJoinClosure : Unit → Nat := fun _ => 42

/-- Embedding of `test_thread_join` (thread.rs lines 142-151): join the worker
(which ran the closure to completion), then `assert_eq_res!(result, 42)`. -/
def test_thread_join_run : Except String Unit :=
  match joinHandle (WorkerEnd.normal (threadJoinClosure ())) "Thread panicked" with
  | Except.error e => Except.error e
  | Except.ok result => assert_eq_res "result" "42" result 42 toString

/-- C10: joining the worker that ran to completion yields exactly the closure's
return value 42, the equality assertion on it succeeds, and the scenario
returns `Pass` (`Ok(())`). -/
theorem thread_join_returns_value :
    threadJoinClosure () = 42
    ∧ joinHandle (WorkerEnd.normal (threadJoinClosure ())) "Thread panicked" = Except.ok 42
    ∧ test_thread_join_run = Except.ok () := by
  refine ⟨rfl, rfl, ?_⟩
  rfl

/- ============ Scheduling scenario band check (thread.rs lines 62-81) ============ -/

/-- The error message formatted by the band check of `test_scheduling`
(thread.rs lines 71-74): `"Thread {i}, loop iteration {j}: value {num} not in
expected range {upper}..{lower}"`. -/
def schedulingCheckMsg (i j num upper lower : Nat) : String :=
  "Thread " ++ toString i ++ ", loop iteration " ++ toString j ++ ": value "
    ++ toString num ++ " not in expected range " ++ toString upper ++ ".." ++ toString lower

/-- Embedding of the band check performed by worker `i` of `test_scheduling` at
the start of round `j` on the counter value `num` it observes under the lock
(thread.rs lines 68-75): `upper = j * THREAD_COUNT; lower = (j + 1) *
THREAD_COUNT; if *num < upper { return Err(...) }`. -/
def schedulingRoundCheck (i j num : Nat) : Except String Unit :=
  let upper := j * THREAD_COUNT
  let lower := (j + 1) * THREAD_COUNT
  if num < upper then Except.error (schedulingCheckMsg i j num upper lower) else Except.ok ()

/-- C3: worker `i` in round `j` fails exactly when the observed counter value
is strictly below `j * THREAD_COUNT`; a value at or above the band's upper
bound `(j + 1) * THREAD_COUNT` never fails (the check is asymmetric); and the
failure message names the thread id, the round, the observed value, and the
expected band `j*K..(j+1)*K`. -/
theorem scheduling_band_check (i j num : Nat) :
    ((∃ e, schedulingRoundCheck i j num = Except.error e) ↔ num < j * THREAD_COUNT)
    ∧ ((j + 1) * THREAD_COUNT ≤ num → schedulingRoundCheck i j num = Except.ok ())
    ∧ (num < j * THREAD_COUNT →
        schedulingRoundCheck i j num
          = Except.error (schedulingCheckMsg i j num (j * THREAD_COUNT) ((j + 1) * THREAD_COUNT))
        ∧ occursIn (toString i) (schedulingCheckMsg i j num (j * THREAD_COUNT) ((j + 1) * THREAD_COUNT))
        ∧ occursIn (toString j) (schedulingCheckMsg i j num (j * THREAD_COUNT) ((j + 1) * THREAD_COUNT))
        ∧ occursIn (toString num) (schedulingCheckMsg i j num (j * THREAD_COUNT) ((j + 1) * THREAD_COUNT))
        ∧ occursIn (toString (j * THREAD_COUNT) ++ ".." ++ toString ((j + 1) * THREAD_COUNT))
            (schedulingCheckMsg i j num (j * THREAD_COUNT) ((j + 1) * THREAD_COUNT))) := by
  refine ⟨?_, ?_, ?_⟩
  · constructor
    · rintro ⟨e, he⟩
      by_contra hge
      simp [schedulingRoundCheck, hge] at he
    · intro h
      refine ⟨schedulingCheckMsg i j num (j * THREAD_COUNT) ((j + 1) * THREAD_COUNT), ?_⟩
      simp only [schedulingRoundCheck]
      rw [if_pos h]
  · intro h
    have : ¬ num < j * THREAD_COUNT := by
      have hle : j * THREAD_COUNT ≤ (j + 1) * THREAD_COUNT :=
        Nat.mul_le_mul_right _ (Nat.le_succ j)
      omega
    simp [schedulingRoundCheck, this]
  · intro h
    refine ⟨?_, ?_, ?_, ?_, ?_⟩
    · simp only [schedulingRoundCheck]
      rw [if_pos h]
    · exact ⟨"Thread ", ", loop iteration " ++ toString j ++ ": value "
        ++ toString num ++ " not in expected range " ++ toString (j * THREAD_COUNT)
        ++ ".." ++ toString ((j + 1) * THREAD_COUNT), by
        simp [schedulingCheckMsg, String.append_assoc]⟩
    · exact ⟨"Thread " ++ toString i ++ ", loop iteration ", ": value "
        ++ toString num ++ " not in expected range " ++ toString (j * THREAD_COUNT)
        ++ ".." ++ toString ((j + 1) * THREAD_COUNT), by
        simp [schedulingCheckMsg, String.append_assoc]⟩
    · exact ⟨"Thread " ++ toString i ++ ", loop iteration " ++ toString j ++ ": value ",
        " not in expected range " ++ toString (j * THREAD_COUNT)
        ++ ".." ++ toString ((j + 1) * THREAD_COUNT), by
        simp [schedulingCheckMsg, String.append_assoc]⟩
    · exact ⟨"Thread " ++ toString i ++ ", loop iteration " ++ toString j ++ ": value "
        ++ toString num ++ " not in expected range ", "", by
        simp [schedulingCheckMsg, String.append_assoc]⟩

/-- C3 witness: thread 3 in round 2 observing 15 (below the band lower bound
20) fails with the full message; observing 30 (the band's upper bound) passes. -/
theorem scheduling_band_check_witness :
    schedulingRoundCheck 3 2 30 = Except.ok ()
    ∧ schedulingRoundCheck 3 2 15
        = Except.error (schedulingCheckMsg 3 2 15 (2 * THREAD_COUNT) (3 * THREAD_COUNT)) :=
  ⟨(scheduling_band_check 3 2 30).2.1 (by decide),
   ((scheduling_band_check 3 2 15).2.2 (by decide)).1⟩

/- ============ One-time initialization (thread.rs lines 268-282) ============ -/

/-- A `OnceLock<i32>` cell: `none` when uninitialised. -/
def onceCellEmpty : Option Int := none

/-- Embedding of `OnceLock::get_or_init`: initialise the cell with the supplied
value when empty, otherwise keep the existing value; return the resulting cell
and the value observed. -/
def getOrInit (c : Option Int) (v : Int) : Option Int × Int :=
  match c with
  | some x => (some x, x)
  | none => (some v, v)

/-- The cell after the worker thread of `test_scoped_oncelock` (thread.rs
lines 270-277) ran `lock.get_or_init(|| 42)` and was joined. -/
def onceCellAfterWorker : Option Int := (getOrInit onceCellEmpty 42).1

/-- Embedding of `test_scoped_oncelock` (thread.rs lines 268-282): spawn the
initialising worker inside a scope and join it (the scope returns only after
the join, so the main-thread read below is sequenced strictly after the worker),
then `assert_eq_res!(lock.get(), Some(&42))` on the main thread. -/
def test_scoped_oncelock_run : Except String Unit :=
  assert_eq_res "lock.get()" "Some(&42)" onceCellAfterWorker (some 42) toString

/-- C8: after the initialising worker has been joined, the main-thread read of
the once-cell yields exactly the value the worker set, `some 42`, and the
scenario returns `Pass`; in the embedding the read is applied to
`onceCellAfterWorker`, the state after the join, so it is never attempted
before the worker completed. -/
theorem scoped_oncelock_reads_worker_value :
    onceCellAfterWorker = some 42
    ∧ test_scoped_oncelock_run = Except.ok () := by
  constructor
  · rfl
  · rfl

/- ============ Mutex counter scenario (thread.rs lines 26-53) ============ -/

/-- An interleaving of `test_mutex_counter`: the `THREAD_COUNT` workers each
execute `ITER_COUNT` lock-protected increments (thread.rs lines 33-38); each
critical section (`lock; *num += 1; unlock`) is atomic, so an execution is a
list recording which worker performed each successive increment. -/
def mutexCounterFinal (sched : List (Fin THREAD_COUNT)) : Nat :=
  sched.foldl (fun c _ => c + 1) 0

/-- The canonical complete interleaving: worker 0's twenty increments, then
worker 1's, and so on. An arbitrary execution is any permutation of it. -/
def mutexFullSchedule : List (Fin THREAD_COUNT) :=
  (List.finRange THREAD_COUNT).flatMap (fun i => List.replicate ITER_COUNT i)

/-- Embedding of `test_mutex_counter` (thread.rs lines 26-53): the workers run
the increments of `sched`, none of them fails (the worker body contains no
assertion and the lock is never poisoned, every worker terminating normally),
all are joined, and the final lock-protected read is checked by
`assert_eq_res!(result, THREAD_COUNT * ITER_COUNT)`. -/
def test_mutex_counter_run (sched : List (Fin THREAD_COUNT)) : Except String Unit :=
  match mutexJoinAll (List.replicate THREAD_COUNT (WorkerEnd.normal (Except.ok ()))) with
  | Except.error e => Except.error e
  | Except.ok _ =>
    assert_eq_res "result" "THREAD_COUNT * ITER_COUNT"
      (mutexCounterFinal sched) (THREAD_COUNT * ITER_COUNT) toString

/-- Each locked increment adds exactly one to the counter. -/
theorem mutexCounterFinal_eq_length (sched : List (Fin THREAD_COUNT)) :
    mutexCounterFinal sched = sched.length := by
  suffices h : ∀ (l : List (Fin THREAD_COUNT)) (n : Nat), l.foldl (fun c _ => c + 1) n = n + l.length by
    simpa [mutexCounterFinal] using h sched 0
  intro l
  induction l with
  | nil => intro n; simp
  | cons x xs ih => intro n; simp [List.foldl_cons, ih]; omega

/-- C2: for any interleaving of the ten workers' twenty locked increments each
(any permutation of the canonical complete schedule), the final counter value
is exactly `THREAD_COUNT * ITER_COUNT = 200` and the scenario returns `Pass`. -/
theorem mutex_counter_any_interleaving (sched : List (Fin THREAD_COUNT))
    (h : sched.Perm mutexFullSchedule) :
    mutexCounterFinal sched = 200
    ∧ THREAD_COUNT * ITER_COUNT = 200
    ∧ test_mutex_counter_run sched = Except.ok () := by
  have hlen : sched.length = 200 := by
    rw [h.length_eq]
    rfl
  have hfinal : mutexCounterFinal sched = 200 := by
    rw [mutexCounterFinal_eq_length, hlen]
  refine ⟨hfinal, rfl, ?_⟩
  have hjoin : mutexJoinAll (List.replicate THREAD_COUNT (WorkerEnd.normal (Except.ok ())))
      = Except.ok () := rfl
  rw [test_mutex_counter_run, hjoin]
  have heq : mutexCounterFinal sched = THREAD_COUNT * ITER_COUNT := by
    rw [hfinal]
    decide
  simp [assert_eq_res, heq]

/-- C2 witness: the canonical complete interleaving itself. -/
theorem mutex_counter_any_interleaving_witness :
    mutexCounterFinal mutexFullSchedule = 200
    ∧ test_mutex_counter_run mutexFullSchedule = Except.ok () :=
  ⟨(mutex_counter_any_interleaving mutexFullSchedule (List.Perm.refl _)).1,
   (mutex_counter_any_interleaving mutexFullSchedule (List.Perm.refl _)).2.2⟩

/- ============ Channel scenario (thread.rs lines 210-242) ============ -/

/-- One atomic channel interaction in `test_channel`: the producer's
`sender.send(i)` for its next loop value, or the consumer's `receiver.recv()`. -/
inductive ChanEv where
  | send
  | recv
  deriving DecidableEq

/-- State of the mpsc channel together with both loop positions: `next` is the
producer's next value to send (its loop counter), `queue` the values sent but
not yet received (front first), `recvd` the consumer's `received` vector. -/
structure ChanSt where
  next : Nat
  queue : List Nat
  recvd : List Nat
  deriving DecidableEq

/-- One step of `test_channel`: a send enqueues the producer's next value; a
receive dequeues the oldest value into `received`. `recv` on an empty queue
blocks, so it cannot be the next step of an execution (`none`). -/
def chanStep (s : ChanSt) : ChanEv → Option ChanSt
  | ChanEv.send => some { next := s.next + 1, queue := s.queue ++ [s.next], recvd := s.recvd }
  | ChanEv.recv =>
    match s.queue with
    | [] => none
    | x :: rest => some { next := s.next, queue := rest, recvd := s.recvd ++ [x] }

/-- Run a schedule of channel events from a state; `none` when the schedule
asks for a receive that would block. -/
def chanRun : List ChanEv → ChanSt → Option ChanSt
  | [], s => some s
  | e :: es, s =>
    match chanStep s e with
    | none => none
    | some s2 => chanRun es s2

/-- Initial channel state of `test_channel` (thread.rs line 211). -/
def chanInit : ChanSt := ⟨0, [], []⟩

/-- Embedding of the final check of `test_channel` (thread.rs lines 239-240):
after both joins, `assert_eq_res!(received, expected)` with
`expected = (0..THREAD_COUNT).collect()`. -/
def test_channel_check (s : ChanSt) : Except String Unit :=
  assert_eq_res "received" "expected" s.recvd (List.range THREAD_COUNT) toString

/-- FIFO invariant of the channel run: everything the producer has sent is the
ascending range `0..next`, split between the received list and the queue, and
the counts of processed events show up in the component lengths. -/
theorem chanRun_invariant (evs : List ChanEv) :
    ∀ s s2, chanRun evs s = some s2 →
      s.recvd ++ s.queue = List.range s.next →
      (s2.recvd ++ s2.queue = List.range s2.next
        ∧ s2.next = s.next + evs.count ChanEv.send
        ∧ s2.recvd.length = s.recvd.length + evs.count ChanEv.recv) := by
  induction evs with
  | nil =>
    intro s s2 hrun hinv
    simp only [chanRun] at hrun
    cases hrun
    simpa using hinv
  | cons e es ih =>
    intro s s2 hrun hinv
    cases e with
    | send =>
      simp only [chanRun, chanStep] at hrun
      have hinv2 : (ChanSt.mk (s.next + 1) (s.queue ++ [s.next]) s.recvd).recvd
          ++ (ChanSt.mk (s.next + 1) (s.queue ++ [s.next]) s.recvd).queue
          = List.range (s.next + 1) := by
        simp only []
        rw [List.range_succ, ← List.append_assoc, hinv]
      obtain ⟨h1, h2, h3⟩ := ih _ _ hrun hinv2
      refine ⟨h1, ?_, ?_⟩
      · simp only [List.count_cons] at h2 ⊢
        simp only [h2]
        simp
        omega
      · simp only [List.count_cons] at h3 ⊢
        simp only [h3]
        simp
    | recv =>
      simp only [chanRun, chanStep] at hrun
      rcases hq : s.queue with _ | ⟨x, rest⟩
      · rw [hq] at hrun
        simp at hrun
      · rw [hq] at hrun
        simp only [] at hrun
        have hinv2 : (ChanSt.mk s.next rest (s.recvd ++ [x])).recvd
            ++ (ChanSt.mk s.next rest (s.recvd ++ [x])).queue
            = List.range s.next := by
          simp only []
          rw [List.append_assoc]
          simpa [hq] using hinv
        obtain ⟨h1, h2, h3⟩ := ih _ _ hrun hinv2
        refine ⟨h1, ?_, ?_⟩
        · simp only [List.count_cons] at h2 ⊢
          simp only [h2]
          simp
        · simp only [List.count_cons] at h3 ⊢
          simp only [h3]
          simp
          omega

/-- C4: for any complete execution of `test_channel` (ten sends of `0..10` by
the single producer, ten receives by the single consumer, receives never
overtaking sends), the received sequence in receipt order is exactly
`[0, 1, 2, 3, 4, 5, 6, 7, 8, 9]` and the scenario returns `Pass`. -/
theorem channel_fifo (evs : List ChanEv) (s : ChanSt)
    (hsend : evs.count ChanEv.send = THREAD_COUNT)
    (hrecv : evs.count ChanEv.recv = THREAD_COUNT)
    (hrun : chanRun evs chanInit = some s) :
    s.recvd = [0, 1, 2, 3, 4, 5, 6, 7, 8, 9]
    ∧ test_channel_check s = Except.ok () := by
  obtain ⟨h1, h2, h3⟩ := chanRun_invariant evs chanInit s hrun (by simp [chanInit])
  simp only [chanInit, hsend, hrecv] at h2 h3
  have hnext : s.next = 10 := by rw [h2]; rfl
  have hlen : s.recvd.length = 10 := by rw [h3]; rfl
  have hq : s.queue = [] := by
    have := congrArg List.length h1
    simp only [List.length_append, List.length_range, hnext, hlen] at this
    have : s.queue.length = 0 := by omega
    exact List.length_eq_zero.mp this
  have hrecvd : s.recvd = List.range 10 := by
    have := h1
    rw [hq, hnext, List.append_nil] at this
    exact this
  constructor
  · rw [hrecvd]
    rfl
  · simp only [test_channel_check]
    have : s.recvd = List.range THREAD_COUNT := by rw [hrecvd]; rfl
    simp [assert_eq_res, this]

/-- The fully alternating schedule send, recv, send, recv, ... -/
def chanAltSchedule : List ChanEv :=
  [ChanEv.send, ChanEv.recv, ChanEv.send, ChanEv.recv,
   ChanEv.send, ChanEv.recv, ChanEv.send, ChanEv.recv, ChanEv.send, ChanEv.recv,
   ChanEv.send, ChanEv.recv, ChanEv.send, ChanEv.recv, ChanEv.send, ChanEv.recv,
   ChanEv.send, ChanEv.recv, ChanEv.send, ChanEv.recv]

/-- C4 witness: the fully alternating schedule completes and the consumer
received exactly `[0, 1, 2, 3, 4, 5, 6, 7, 8, 9]`. -/
theorem channel_fifo_witness :
    ∃ s, chanRun chanAltSchedule chanInit = some s
      ∧ s.recvd = [0, 1, 2, 3, 4, 5, 6, 7, 8, 9]
      ∧ test_channel_check s = Except.ok () := by
  refine ⟨⟨10, [], [0, 1, 2, 3, 4, 5, 6, 7, 8, 9]⟩, ?_, ?_⟩
  · decide
  · exact channel_fifo chanAltSchedule _ (by decide) (by decide) (by decide)

/- ============ Read-write lock scenario (thread.rs lines 168-207) ============ -/

/-- One atomic lock-protected access in `test_rwlock`: writer `w` holding the
write lock for its single increment (thread.rs lines 176-179), or reader `r`
holding the read lock for its single observation (thread.rs lines 189-192). -/
inductive RwEv where
  | write (w : Fin THREAD_COUNT)
  | read (r : Fin THREAD_COUNT)
  deriving DecidableEq

/-- Whether an event is a writer's critical section. -/
def rwIsWrite : RwEv → Bool
  | RwEv.write _ => true
  | RwEv.read _ => false

/-- State of a `test_rwlock` execution: the shared counter and, for each
reader, the counter value it observed while holding the read lock (0 until the
reader has run; a complete execution schedules every reader exactly once). -/
structure RwSt where
  counter : Nat
  obs : Fin THREAD_COUNT → Nat

/-- One atomic critical section of `test_rwlock`. -/
def rwStep (s : RwSt) : RwEv → RwSt
  | RwEv.write _ => { counter := s.counter + 1, obs := s.obs }
  | RwEv.read r => { counter := s.counter, obs := fun x => if x = r then s.counter else s.obs x }

/-- Run an interleaving of `test_rwlock` from the initial state
(`RwLock::new(0)`, no reader has observed yet). -/
def rwRun (sched : List RwEv) : RwSt :=
  sched.foldl rwStep ⟨0, fun _ => 0⟩

/-- The body of a reader thread of `test_rwlock` (thread.rs lines 188-194)
applied to the value it observed: `assert_res!(*num >= 1)`. -/
def rwReaderBody (v : Nat) : Except String Unit :=
  assert_res "*num >= 1" (decide (1 ≤ v))

/-- The join loop over the reader threads (thread.rs lines 198-200): each
reader's returned `Result` is propagated with `??`, the first `Err` winning.
(The writer threads, joined first, always return `Ok(())`.) -/
def rwJoinReaders : List Nat → Except String Unit
  | [] => Except.ok ()
  | v :: vs =>
    match rwReaderBody v with
    | Except.error e => Except.error e
    | Except.ok _ => rwJoinReaders vs

/-- The complete event multiset of `test_rwlock`: every writer's single
increment and every reader's single observation; a concrete execution is any
permutation of it. -/
def rwAllEvents : List RwEv :=
  (List.finRange THREAD_COUNT).map RwEv.write ++ (List.finRange THREAD_COUNT).map RwEv.read

/-- Embedding of `test_rwlock` (thread.rs lines 168-207): run the interleaving,
join the writers (all `Ok`), join the readers in spawn order propagating their
assertion results, then check `assert_eq_res!(final_count, THREAD_COUNT as
i32)` on the final read-locked value. -/
def test_rwlock_run (sched : List RwEv) : Except String Unit :=
  match rwJoinReaders ((List.finRange THREAD_COUNT).map (rwRun sched).obs) with
  | Except.error e => Except.error e
  | Except.ok _ =>
    assert_eq_res "final_count" "THREAD_COUNT as i32"
      (rwRun sched).counter THREAD_COUNT toString

/-- Each writer critical section adds one to the counter and reads add none. -/
theorem rwRun_counter (l : List RwEv) :
    ∀ s : RwSt, (List.foldl rwStep s l).counter = s.counter + l.countP rwIsWrite := by
  induction l with
  | nil => intro s; simp
  | cons e es ih =>
    intro s
    cases e with
    | write w =>
      simp only [List.foldl_cons, rwStep, ih, List.countP_cons, rwIsWrite]
      simp
      omega
    | read r =>
      simp only [List.foldl_cons, rwStep, ih, List.countP_cons, rwIsWrite]
      simp

/-- The reader join loop succeeds exactly when every observation was `>= 1`. -/
theorem rwJoinReaders_ok_iff (vs : List Nat) :
    rwJoinReaders vs = Except.ok () ↔ ∀ v ∈ vs, 1 ≤ v := by
  induction vs with
  | nil => simp [rwJoinReaders]
  | cons v vs ih =>
    by_cases hv : 1 ≤ v
    · simp [rwJoinReaders, rwReaderBody, assert_res, hv, ih]
    · simp [rwJoinReaders, rwReaderBody, assert_res, hv]

/-- C1 counterexample schedule: reader 0 takes the read lock first, before any
writer has run, so it observes the pre-write initial value 0; afterwards all
ten writers and the remaining nine readers run. -/
def rwCexSched : List RwEv :=
  RwEv.read ⟨0, by decide⟩ ::
    ((List.finRange THREAD_COUNT).map RwEv.write
      ++ ((List.finRange THREAD_COUNT).drop 1).map RwEv.read)

/-- C1 counterexample: `rwCexSched` is a complete execution (a permutation of
all twenty critical sections) in which reader 0 observes the pre-write initial
value 0; no lock acquisition fails and the final aggregate value is exactly
`THREAD_COUNT`, so the final aggregate check would pass — yet the scenario
returns `Fail`, with the reader's own `assert_res!(*num >= 1)` message. This
refutes the claim that a reader observing 0 is not itself a scenario failure. -/
theorem rwlock_reader_zero_fails_scenario :
    rwCexSched.Perm rwAllEvents
    ∧ (rwRun rwCexSched).obs ⟨0, by decide⟩ = 0
    ∧ (rwRun rwCexSched).counter = THREAD_COUNT
    ∧ test_rwlock_run rwCexSched = Except.error "Assertion failed: `*num >= 1` is false" := by
  refine ⟨by decide, by decide, by decide, by decide⟩

/-- C1 amended: in a complete execution of `test_rwlock` (any permutation of
the twenty critical sections, with no lock acquisition failing), the scenario
returns `Pass` exactly when every reader observed a value `>= 1`: a reader
observing the pre-write initial value 0 is itself a scenario failure via its
in-thread assertion, in addition to the final aggregate check and
lock-acquisition failures. -/
theorem rwlock_pass_iff_all_readers_nonzero (sched : List RwEv)
    (h : sched.Perm rwAllEvents) :
    test_rwlock_run sched = Except.ok ()
      ↔ ∀ r : Fin THREAD_COUNT, 1 ≤ (rwRun sched).obs r := by
  have hcount : (rwRun sched).counter = THREAD_COUNT := by
    rw [rwRun, rwRun_counter]
    rw [h.countP_eq]
    rfl
  constructor
  · intro hok r
    rw [test_rwlock_run] at hok
    rcases hjoin : rwJoinReaders ((List.finRange THREAD_COUNT).map (rwRun sched).obs) with e | u
    · rw [hjoin] at hok
      cases hok
    · have := (rwJoinReaders_ok_iff _).mp (by rw [hjoin])
      exact this _ (List.mem_map_of_mem _ (List.mem_finRange r))
  · intro hobs
    have hjoin : rwJoinReaders ((List.finRange THREAD_COUNT).map (rwRun sched).obs)
        = Except.ok () := by
      rw [rwJoinReaders_ok_iff]
      intro v hv
      rcases List.mem_map.mp hv with ⟨r, _, hr⟩
      exact hr ▸ hobs r
    rw [test_rwlock_run, hjoin]
    simp [assert_eq_res, hcount]

/-- C1 amended witness: the schedule running all writers before all readers is
a complete execution whose readers all observe 10, and the scenario passes. -/
theorem rwlock_pass_iff_all_readers_nonzero_witness :
    test_rwlock_run rwAllEvents = Except.ok () :=
  (rwlock_pass_iff_all_readers_nonzero rwAllEvents (List.Perm.refl _)).mpr (by decide)

/- ======== Thread-local storage scenario (thread.rs lines 285-321) ======== -/

/-- One access of `test_thread_local_storage` to the thread-local slot: worker
`i` storing `i + 20` into its own slot (thread.rs line 298), or worker `i`
reading its slot back after the sleep (thread.rs line 302). -/
inductive TlsEv where
  | write (i : Fin THREAD_COUNT)
  | readback (i : Fin THREAD_COUNT)
  deriving DecidableEq

/-- State of a `test_thread_local_storage` execution: each worker thread's own
`THREAD_LOCAL` slot instance, the main thread's slot instance (which no event
ever touches), and for each worker the value its read-back observed. Every
slot starts at the `RefCell::new(0)` default. -/
structure TlsSt where
  slots : Fin THREAD_COUNT → Nat
  mainSlot : Nat
  obs : Fin THREAD_COUNT → Option Nat

/-- One slot access: thread `i` writes only its own slot instance and reads
only its own slot instance; no event touches the main thread's slot. -/
def tlsStep (s : TlsSt) : TlsEv → TlsSt
  | TlsEv.write i =>
    { slots := fun x => if x = i then i.val + 20 else s.slots x,
      mainSlot := s.mainSlot, obs := s.obs }
  | TlsEv.readback i =>
    { slots := s.slots, mainSlot := s.mainSlot,
      obs := fun x => if x = i then some (s.slots i) else s.obs x }

/-- Initial state: every thread-local slot instance holds the default 0 and no
worker has read back yet. -/
def tlsInit : TlsSt := ⟨fun _ => 0, 0, fun _ => none⟩

/-- Run an interleaving of the slot accesses of `test_thread_local_storage`. -/
def tlsRun (sched : List TlsEv) : TlsSt :=
  sched.foldl tlsStep tlsInit

/-- Worker `i`'s in-thread check (thread.rs line 302),
`assert_eq_res!(*local.borrow(), i + 20)`, applied to the value `v` its
read-back observed. -/
def tlsWorkerCheck (i : Fin THREAD_COUNT) (v : Nat) : Except String Unit :=
  assert_eq_res "*local.borrow()" "i + 20" v (i.val + 20) toString

/-- The main thread's final check (thread.rs line 316),
`assert_eq_res!(final_value, 0)`, applied to the main thread's own slot. -/
def tlsMainCheck (v : Nat) : Except String Unit :=
  assert_eq_res "final_value" "0" v 0 toString

/-- Once thread `i` has written, its slot holds `i + 20` from then on: no other
thread's access can change it. -/
theorem tlsFold_slots (i : Fin THREAD_COUNT) (l : List TlsEv) :
    ∀ s : TlsSt, (TlsEv.write i ∈ l ∨ s.slots i = i.val + 20) →
      (List.foldl tlsStep s l).slots i = i.val + 20 := by
  induction l with
  | nil =>
    intro s h
    rcases h with hmem | hs
    · cases hmem
    · simpa using hs
  | cons e es ih =>
    intro s h
    rw [List.foldl_cons]
    apply ih
    rcases h with hmem | hs
    · rcases List.mem_cons.mp hmem with he | hmem2
      · right
        rw [← he]
        simp [tlsStep]
      · left
        exact hmem2
    · right
      cases e with
      | write j =>
        simp only [tlsStep]
        by_cases hij : i = j
        · subst hij
          simp
        · simp [hij, hs]
      | readback j => simpa [tlsStep] using hs
/-- A stretch of events containing no read-back by thread `i` leaves thread
`i`'s recorded observation unchanged. -/
theorem tlsFold_obs (i : Fin THREAD_COUNT) (l : List TlsEv) :
    ∀ s : TlsSt, TlsEv.readback i ∉ l → (List.foldl tlsStep s l).obs i = s.obs i := by
  induction l with
  | nil => intro s _; rfl
  | cons e es ih =>
    intro s h
    rw [List.foldl_cons]
    rw [ih _ (fun hmem => h (List.mem_cons_of_mem _ hmem))]
    cases e with
    | write j => rfl
    | readback j =>
      have hij : i ≠ j := fun hij => h (by rw [hij]; exact List.mem_cons_self _ _)
      simp [tlsStep, hij]

/-- No event ever touches the main thread's slot instance. -/
theorem tlsFold_mainSlot (l : List TlsEv) :
    ∀ s : TlsSt, (List.foldl tlsStep s l).mainSlot = s.mainSlot := by
  induction l with
  | nil => intro s; rfl
  | cons e es ih =>
    intro s
    rw [List.foldl_cons, ih]
    cases e with
    | write j => rfl
    | readback j => rfl

/-- C9: in any execution of `test_thread_local_storage` in which worker `i`
writes `i + 20` before its (single, final) read-back — the program order of
the worker, with arbitrary other threads' accesses interleaved in between —
the read-back observes exactly `i + 20`, the value that same thread wrote, so
its in-thread assertion passes; the observation never equals a value `j + 20`
written by a different thread `j`; and the main thread, which never wrote,
still holds the untouched default 0, which passes its own check and differs
from every worker-written value. -/
theorem tls_threads_read_own_values (sched : List TlsEv) (i : Fin THREAD_COUNT)
    (l1 l2 : List TlsEv)
    (hdecomp : sched = l1 ++ TlsEv.readback i :: l2)
    (hnorep : TlsEv.readback i ∉ l2)
    (hwrote : TlsEv.write i ∈ l1) :
    (tlsRun sched).obs i = some (i.val + 20)
    ∧ (∀ v, (tlsRun sched).obs i = some v → tlsWorkerCheck i v = Except.ok ())
    ∧ (∀ j : Fin THREAD_COUNT, j ≠ i → (tlsRun sched).obs i ≠ some (j.val + 20))
    ∧ (tlsRun sched).mainSlot = 0
    ∧ tlsMainCheck (tlsRun sched).mainSlot = Except.ok ()
    ∧ (∀ j : Fin THREAD_COUNT, (tlsRun sched).mainSlot ≠ j.val + 20) := by
  have hobs : (tlsRun sched).obs i = some (i.val + 20) := by
    rw [tlsRun, hdecomp, List.foldl_append, List.foldl_cons]
    rw [tlsFold_obs i l2 _ hnorep]
    have hslot : (List.foldl tlsStep tlsInit l1).slots i = i.val + 20 :=
      tlsFold_slots i l1 tlsInit (Or.inl hwrote)
    simp [tlsStep, hslot]
  have hmain : (tlsRun sched).mainSlot = 0 := by
    rw [tlsRun, tlsFold_mainSlot]
    rfl
  refine ⟨hobs, ?_, ?_, hmain, ?_, ?_⟩
  · intro v hv
    rw [hobs] at hv
    cases hv
    simp [tlsWorkerCheck, assert_eq_res]
  · intro j hji hcontra
    rw [hobs] at hcontra
    have : i.val + 20 = j.val + 20 := by
      injection hcontra
    have : i = j := Fin.ext (by omega)
    exact hji this.symm
  · rw [hmain]
    simp [tlsMainCheck, assert_eq_res]
  · intro j
    rw [hmain]
    omega

/-- C9 witness: worker 0 writes its slot and then reads it back, observing
exactly its own value 20; the main thread's slot is still 0. -/
theorem tls_threads_read_own_values_witness :
    (tlsRun [TlsEv.write ⟨0, by decide⟩, TlsEv.readback ⟨0, by decide⟩]).obs ⟨0, by decide⟩
      = some ((0 : Nat) + 20)
    ∧ (tlsRun [TlsEv.write ⟨0, by decide⟩, TlsEv.readback ⟨0, by decide⟩]).mainSlot = 0 := by
  have h := tls_threads_read_own_values
    [TlsEv.write ⟨0, by decide⟩, TlsEv.readback ⟨0, by decide⟩] ⟨0, by decide⟩
    [TlsEv.write ⟨0, by decide⟩] [] rfl (by decide) (by decide)
  exact ⟨h.1, h.2.2.2.1⟩
